import Mathlib

/-!
Verification development for the AWS serverless analytics pipeline.

The definitions below are a shallow embedding of the JavaScript sources:
the analytics Lambda (`AnalyticsService` in `src/analytics/analytics-service.js`),
the job service (`src/services/job-service.js`), the data-processor Lambda
(`src/ingestion/data-processor.js`), and the Step Functions workflow
declaration (`lib/step-functions-stack.js`).

Strings are embedded as `List Char` (lists of Unicode scalar values);
a JavaScript string's `.length` is its UTF-16 code-unit count (`utf16Len`),
which differs from its UTF-8 byte count (`utf8Len`) on non-ASCII data.
Row sets are lists of rows, a row being a list of field-name/value pairs
with string values (the JSON-representable shape returned by `pg`).
Timestamps (`Date.now()`) are modelled as a `Nat` parameter.  The S3 bucket
and the DynamoDB table are modelled as association lists where a `put`
conses a binding and a `get` returns the first (most recent) binding,
matching overwrite-on-same-key semantics.
-/

namespace AWSPipeline

/-! Definitions. -/

/-! Section: Character and string utilities -/

/-- Lower-case an ASCII letter; other characters unchanged (models the
ASCII case folding performed by a case-insensitive JavaScript regex over
the ASCII patterns used in this code base). -/
def toLowerAscii (c : Char) : Char :=
  if 65 ≤ c.toNat ∧ c.toNat ≤ 90 then Char.ofNat (c.toNat + 32) else c

/-- Case-insensitive character comparison. -/
def charCI (a b : Char) : Bool := toLowerAscii a = toLowerAscii b

/-- Whitespace class of JavaScript regex `\s`. -/
def jsIsSpace (c : Char) : Bool :=
  c = ' ' || c = '\t' || c = '\n' || c = '\x0b' || c = '\x0c' || c = '\r' ||
  c.toNat = 160 || c.toNat = 5760 ||
  (8192 ≤ c.toNat && c.toNat ≤ 8202) ||
  c.toNat = 8232 || c.toNat = 8233 || c.toNat = 8239 || c.toNat = 8287 ||
  c.toNat = 12288 || c.toNat = 65279

/-- Word-character class of JavaScript regex `\w`. -/
def jsIsWord (c : Char) : Bool :=
  (48 ≤ c.toNat && c.toNat ≤ 57) || (65 ≤ c.toNat && c.toNat ≤ 90) ||
  (97 ≤ c.toNat && c.toNat ≤ 122) || c = '_'

/-- Match a literal (case-insensitively) at the head of the input, then
continue with `k` on the rest. -/
def litThen : List Char → (List Char → Bool) → List Char → Bool
  | [], k, s => k s
  | _ :: _, _, [] => false
  | p :: ps, k, c :: cs => charCI p c && litThen ps k cs

/-- Match one or more characters of class `cls` at the head of the input,
then continue with `k` (models `cls+` in a regex). -/
def clsPlusThen (cls : Char → Bool) (k : List Char → Bool) : List Char → Bool
  | [] => false
  | c :: cs => cls c && (k cs || clsPlusThen cls k cs)

/-- Accept the rest of the input unconditionally (end of a pattern). -/
def patEnd : List Char → Bool := fun _ => true

/-- Run a positional matcher at every position of the input (models
`RegExp.prototype.test`, which searches for a match anywhere). -/
def searchPat (m : List Char → Bool) : List Char → Bool
  | [] => m []
  | c :: cs => m (c :: cs) || searchPat m cs

/-- Case-sensitive prefix test, used for `String.prototype.includes`. -/
def startsWithChars : List Char → List Char → Bool
  | [], _ => true
  | _ :: _, [] => false
  | p :: ps, c :: cs => p = c && startsWithChars ps cs

/-- Case-sensitive substring test (models `String.prototype.includes`). -/
def containsSub (needle hay : List Char) : Bool :=
  searchPat (startsWithChars needle) hay

/-- Modelled from the spec: case-insensitive substring containment, the
reading of "query text containing DROP ... (case-insensitive)" in the
specification's sandbox-rejection property. -/
def specContainsCI (needle hay : List Char) : Bool :=
  searchPat (litThen needle patEnd) hay

/-! Section: The sandbox validator (`validateCustomQuery`) -/

/-- Regex `/DROP\s+/i`. -/
def patDROP : List Char → Bool :=
  litThen (("drop").toList) (clsPlusThen jsIsSpace patEnd)

/-- Regex `/DELETE\s+FROM/i`. -/
def patDELETE : List Char → Bool :=
  litThen (("delete").toList) (clsPlusThen jsIsSpace (litThen (("from").toList) patEnd))

/-- Regex `/TRUNCATE\s+/i`. -/
def patTRUNCATE : List Char → Bool :=
  litThen (("truncate").toList) (clsPlusThen jsIsSpace patEnd)

/-- Regex `/INSERT\s+INTO/i`. -/
def patINSERT : List Char → Bool :=
  litThen (("insert").toList) (clsPlusThen jsIsSpace (litThen (("into").toList) patEnd))

/-- Regex `/UPDATE\s+\w+\s+SET/i`. -/
def patUPDATE : List Char → Bool :=
  litThen (("update").toList)
    (clsPlusThen jsIsSpace
      (clsPlusThen jsIsWord
        (clsPlusThen jsIsSpace (litThen (("set").toList) patEnd))))

/-- Regex `/CREATE\s+/i`. -/
def patCREATE : List Char → Bool :=
  litThen (("create").toList) (clsPlusThen jsIsSpace patEnd)

/-- Regex `/ALTER\s+/i`. -/
def patALTER : List Char → Bool :=
  litThen (("alter").toList) (clsPlusThen jsIsSpace patEnd)

/-- Regex `/GRANT\s+/i`. -/
def patGRANT : List Char → Bool :=
  litThen (("grant").toList) (clsPlusThen jsIsSpace patEnd)

/-- Regex `/REVOKE\s+/i`. -/
def patREVOKE : List Char → Bool :=
  litThen (("revoke").toList) (clsPlusThen jsIsSpace patEnd)

/-- The `forbiddenPatterns` array of `validateCustomQuery`, in source order. -/
def forbiddenPatterns : List (List Char → Bool) :=
  [patDROP, patDELETE, patTRUNCATE, patINSERT, patUPDATE,
   patCREATE, patALTER, patGRANT, patREVOKE]

/-- True when some forbidden pattern tests positive on the query text. -/
def queryMatchesForbidden (q : List Char) : Bool :=
  forbiddenPatterns.any (fun m => searchPat m q)

/-- Embedding of `AnalyticsService.validateCustomQuery`: throws on a
forbidden-pattern match, then on a length over 10,000; otherwise returns. -/
def validateCustomQuery (q : List Char) : Except (List Char) Unit :=
  if queryMatchesForbidden q = true then
    Except.error (("Query contains forbidden operations").toList)
  else if q.length > 10000 then
    Except.error (("Query too complex. Maximum length exceeded.").toList)
  else
    Except.ok ()

/-! Section: JSON serialization (`JSON.stringify` over row sets) and string sizes -/

/-- Hexadecimal digit for `\u00XX` escapes. -/
def hexDigit (n : Nat) : Char :=
  if n < 10 then Char.ofNat (48 + n) else Char.ofNat (87 + n)

/-- JSON escape of one character, as `JSON.stringify` performs it. -/
def escapeChar (c : Char) : List Char :=
  if c = '"' then ['\\', '"']
  else if c = '\\' then ['\\', '\\']
  else if c = '\x08' then ['\\', 'b']
  else if c = '\x0c' then ['\\', 'f']
  else if c = '\n' then ['\\', 'n']
  else if c = '\r' then ['\\', 'r']
  else if c = '\t' then ['\\', 't']
  else if c.toNat < 32 then ['\\', 'u', '0', '0', hexDigit (c.toNat / 16), hexDigit (c.toNat % 16)]
  else [c]

/-- JSON escape of a string body. -/
def escapeList : List Char → List Char
  | [] => []
  | c :: t => escapeChar c ++ escapeList t

/-- Serialized JSON string: quote, escaped body, quote. -/
def quoteStr (s : List Char) : List Char := '"' :: (escapeList s ++ ['"'])

/-- One row is a list of field-name/value pairs with string values. -/
abbrev Row := List (List Char × List Char)

/-- Serialized `"name":"value"` field. -/
def stringifyField (f : List Char × List Char) : List Char :=
  quoteStr f.1 ++ ':' :: quoteStr f.2

/-- Comma-join of serialized pieces. -/
def joinComma : List (List Char) → List Char
  | [] => []
  | [x] => x
  | x :: y :: t => x ++ ',' :: joinComma (y :: t)

/-- Serialized JSON object for one row. -/
def stringifyRow (r : Row) : List Char :=
  '{' :: (joinComma (r.map stringifyField) ++ ['}'])

/-- Serialized JSON array for a row set: `JSON.stringify(result)`. -/
def stringifyRows (rs : List Row) : List Char :=
  '[' :: (joinComma (rs.map stringifyRow) ++ [']'])

/-- UTF-16 code units occupied by a character (JavaScript `String#length`
counts these). -/
def charUtf16 (c : Char) : Nat := if c.toNat < 65536 then 1 else 2

/-- UTF-8 bytes occupied by a character. -/
def charUtf8 (c : Char) : Nat :=
  if c.toNat < 128 then 1
  else if c.toNat < 2048 then 2
  else if c.toNat < 65536 then 3
  else 4

/-- UTF-16 code-unit count of a string (JavaScript `.length`). -/
def utf16Len : List Char → Nat
  | [] => 0
  | c :: t => charUtf16 c + utf16Len t

/-- UTF-8 byte count of a string. -/
def utf8Len : List Char → Nat
  | [] => 0
  | c :: t => charUtf8 c + utf8Len t

/-! Section: Decimal rendering of timestamps (template interpolation of `Date.now()`) -/

/-- Decimal digit character. -/
def digitChar (d : Nat) : Char := Char.ofNat (48 + d)

/-- Fuel-driven decimal rendering accumulator (kernel-reducible). -/
def natToCharsAux : Nat → Nat → List Char → List Char
  | 0, _, acc => acc
  | fuel + 1, n, acc =>
    if n < 10 then digitChar n :: acc
    else natToCharsAux fuel (n / 10) (digitChar (n % 10) :: acc)

/-- Decimal rendering of a natural number, as JavaScript template
interpolation renders `Date.now()`. -/
def natToChars (n : Nat) : List Char := natToCharsAux (n + 1) n []

/-- Reference recursion for the decimal rendering, used in proofs. -/
def natToCharsSpec (n : Nat) : List Char :=
  if n < 10 then [digitChar n]
  else natToCharsSpec (n / 10) ++ [digitChar (n % 10)]
decreasing_by exact Nat.div_lt_self (by omega) (by omega)

/-- Decimal value of a digit string, used to invert the rendering. -/
def charsVal (l : List Char) : Nat :=
  l.foldl (fun a c => 10 * a + (c.toNat - 48)) 0

/-! Section: the key extraction s3Key.split and pop. -/

/-- Embedding of `String.prototype.split` with a single-character
separator. -/
def splitOnChar (c : Char) : List Char → List (List Char)
  | [] => [[]]
  | x :: xs =>
    let r := splitOnChar c xs
    if x = c then [] :: r
    else
      match r with
      | [] => [[x]]
      | h :: t => (x :: h) :: t

/-- Embedding of `Array.prototype.pop` on a non-empty array: the last
element (empty string on an empty array, unreachable here). -/
def lastPart : List (List Char) → List Char
  | [] => []
  | [x] => x
  | _ :: y :: t => lastPart (y :: t)

/-! Section: S3 result storage and the analytics service -/

/-- Content persisted by `saveLargeResultToS3` (modelled structurally: the
body is `JSON.stringify` of this object and `handleS3Download` parses it
back, which is the identity on JSON-representable data). -/
structure StoredResult where
  operation : List Char
  data : List Row
  generatedAt : Nat
  recordCount : Nat
deriving DecidableEq

/-- The results bucket keyed by object key; a put conses (overwrites by
shadowing), a get returns the most recent binding. -/
abbrev S3Store := List (List Char × StoredResult)

/-- S3 `GetObject` on the modelled bucket. -/
def s3Get : S3Store → List Char → Option StoredResult
  | [], _ => none
  | (k, v) :: t, key => if key = k then some v else s3Get t key

/-- Error payload of a failure response (`message` plus
`error.constructor.name`). -/
structure ErrorInfo where
  message : List Char
  etype : List Char
deriving DecidableEq

/-- Shape of the object returned by `executeAnalyticsOperation` and
`saveLargeResultToS3`: `resultCount` is the `metadata.resultCount` field,
`recordCount` the top-level field of the large-result response. -/
structure AnalyticsResponse where
  success : Bool
  operation : List Char
  data : Option (List Row)
  largeResult : Bool
  s3Url : Option (List Char)
  downloadUrl : Option (List Char)
  recordCount : Option Nat
  resultCount : Option Nat
  error : Option ErrorInfo
  suggestions : List (List Char)
deriving DecidableEq

/-- Name of the results bucket (`process.env.RESULTS_BUCKET`). -/
def resultsBucket : List Char := ("RESULTS_BUCKET").toList

/-- Key suffix after `results/`: `operation`, dash, decimal `Date.now()`,
`.json`. -/
def keyTail (op : List Char) (now : Nat) : List Char :=
  op ++ '-' :: (natToChars now ++ (".json").toList)

/-- Storage key built by `saveLargeResultToS3`:
`results/{operation}-{Date.now()}.json`. -/
def resultKey (op : List Char) (now : Nat) : List Char :=
  ("results/").toList ++ keyTail op now

/-- Embedding of `AnalyticsService.saveLargeResultToS3`: persists the
result envelope under `resultKey` and returns the large-result response
with `s3Url` and `downloadUrl` (the key's last `/`-separated segment). -/
def saveLargeResultToS3 (store : S3Store) (result : List Row) (op : List Char)
    (now : Nat) : AnalyticsResponse × S3Store :=
  let s3Key := resultKey op now
  (⟨true, op, none, true,
    some (("s3://").toList ++ resultsBucket ++ '/' :: s3Key),
    some (("/download/").toList ++ lastPart (splitOnChar '/' s3Key)),
    some result.length, some result.length, none, []⟩,
   (s3Key, ⟨op, result, now, result.length⟩) :: store)

/-- Success response when the result is returned inline. -/
def inlineResponse (op : List Char) (result : List Row) : AnalyticsResponse :=
  ⟨true, op, some result, false, none, none, none, some result.length, none, []⟩

/-- Size routing performed by `executeAnalyticsOperation` after the
operation succeeds: spill to S3 when `result.length > 1000` or
`JSON.stringify(result).length > 5000000` (JavaScript string length,
i.e. UTF-16 code units), else return inline. -/
def routeResult (store : S3Store) (result : List Row) (op : List Char)
    (now : Nat) : AnalyticsResponse × S3Store :=
  if result.length > 1000 ∨ utf16Len (stringifyRows result) > 5000000 then
    saveLargeResultToS3 store result op now
  else
    (inlineResponse op result, store)

/-- Response shape of `handleS3Download`. -/
structure DownloadResponse where
  statusCode : Nat
  success : Bool
  data : Option (List Row)
  recordCount : Option Nat
deriving DecidableEq

/-- Embedding of `AnalyticsService.handleS3Download`: reads
`results/{key}` from the bucket; a missing key or missing object yields
the 404 response. -/
def handleS3Download (store : S3Store) (key : Option (List Char)) : DownloadResponse :=
  match key with
  | none => ⟨404, false, none, none⟩
  | some k =>
    match s3Get store (("results/").toList ++ k) with
    | some v => ⟨200, true, some v.data, some v.recordCount⟩
    | none => ⟨404, false, none, none⟩

/-! Section: Operation dispatch -/

/-- Caller-supplied parameters object, with the fields the dispatch code
reads.  Absent fields are `none`; JavaScript falsiness of the empty
string is not needed by any claim and is not modelled. -/
structure Params where
  timeframe : Option (List Char)
  analysisPeriod : Option (List Char)
  metric : Option (List Char)
  group_by : Option (List Char)
  rootEntityId : Option (List Char)
  query : Option (List Char)
  params : List (List Char)

/-- Empty parameters object. -/
def noParams : Params := ⟨none, none, none, none, none, none, []⟩

/-- External query-service collaborator: the rows each registry operation
returns, and the connection pool's ad-hoc query executor (modelled total;
driver failures are outside every claim). -/
structure QueryEnv where
  getDatabaseInfo : List Row
  getMultiDimensionalAnalytics : List Char → List Row
  getEntityRelationshipNetwork : Option (List Char) → List Row
  getTimeSeriesPatterns : List Char → List Row
  getDataIntegrityAnalysis : List Row
  getCustomerAnalysis : List Char → List Char → List Row
  getRevenueAnalysis : List Char → List Char → List Row
  getCountAnalysis : List Char → List Char → List Row
  getSimpleDemo : List Row
  execQuery : List Char → List (List Char) → List Row

/-- Query environment in which every operation returns no rows. -/
def trivialEnv : QueryEnv :=
  ⟨[], fun _ => [], fun _ => [], fun _ => [], [],
   fun _ _ => [], fun _ _ => [], fun _ _ => [], [], fun _ _ => []⟩

/-- Embedding of `AnalyticsService.executeCustomComplexQuery`: validates,
then sends the text to `pool.query`.  The second component is the list of
caller-supplied query texts that reached the executor. -/
def executeCustomComplexQuery (exec : List Char → List (List Char) → List Row)
    (q : List Char) (ps : List (List Char)) :
    Except (List Char) (List Row) × List (List Char) :=
  match validateCustomQuery q with
  | Except.error e => (Except.error e, [])
  | Except.ok _ => (Except.ok (exec q ps), [q])

/-- Operation names recognized by the `switch` of
`executeAnalyticsOperation`, in source order. -/
def registryNames : List (List Char) :=
  [("database_info").toList, ("multi_dimensional_analytics").toList,
   ("relationship_network").toList, ("time_series_patterns").toList,
   ("data_integrity_analysis").toList, ("customer_analysis").toList,
   ("revenue_analysis").toList, ("count_analysis").toList,
   ("custom_complex_query").toList, ("simple_demo").toList]

/-- The `switch (operation)` of `executeAnalyticsOperation`: the rows, or
the thrown error's message; the second component is the list of
caller-supplied query texts that reached the executor. -/
def dispatchOperation (env : QueryEnv) (op : List Char) (p : Params) :
    Except (List Char) (List Row) × List (List Char) :=
  if op = ("database_info").toList then (Except.ok env.getDatabaseInfo, [])
  else if op = ("multi_dimensional_analytics").toList then
    (Except.ok (env.getMultiDimensionalAnalytics (p.timeframe.getD (("3 months").toList))), [])
  else if op = ("relationship_network").toList then
    (Except.ok (env.getEntityRelationshipNetwork p.rootEntityId), [])
  else if op = ("time_series_patterns").toList then
    (Except.ok (env.getTimeSeriesPatterns (p.analysisPeriod.getD (("6 months").toList))), [])
  else if op = ("data_integrity_analysis").toList then
    (Except.ok env.getDataIntegrityAnalysis, [])
  else if op = ("customer_analysis").toList then
    (Except.ok (env.getCustomerAnalysis (p.metric.getD (("lifetime_value").toList))
      (p.group_by.getD (("industry").toList))), [])
  else if op = ("revenue_analysis").toList then
    (Except.ok (env.getRevenueAnalysis (p.metric.getD (("annual_revenue").toList))
      (p.group_by.getD (("region").toList))), [])
  else if op = ("count_analysis").toList then
    (Except.ok (env.getCountAnalysis (p.metric.getD (("customer_count").toList))
      (p.group_by.getD (("industry").toList))), [])
  else if op = ("custom_complex_query").toList then
    match p.query with
    | none => (Except.error (("Custom query is required for this operation").toList), [])
    | some q => executeCustomComplexQuery env.execQuery q p.params
  else if op = ("simple_demo").toList then (Except.ok env.getSimpleDemo, [])
  else (Except.error (("Unknown analytics operation: ").toList ++ op), [])

/-! Section: Error suggestions and the catch-all failure response -/

/-- The `suggestions` array of `getErrorSuggestions` before the fallback:
message-keyed pushes then the operation `switch`. -/
def errorSuggestionCandidates (msg op : List Char) : List (List Char) :=
  (if containsSub (("timeout").toList) msg then
    [("Try reducing the analysis timeframe").toList,
     ("Consider using smaller data subsets").toList] else [])
  ++ (if containsSub (("memory").toList) msg then
    [("Try using more specific filters").toList,
     ("Consider implementing pagination").toList] else [])
  ++ (if containsSub (("syntax").toList) msg then
    [("Check query syntax and parameter types").toList] else [])
  ++ (if op = ("relationship_network").toList then
    [("Try specifying a rootEntityId to limit the graph traversal").toList]
  else if op = ("multi_dimensional_analytics").toList then
    [("Try using a shorter timeframe for initial analysis").toList] else [])

/-- Embedding of `AnalyticsService.getErrorSuggestions`: the collected
suggestions, or the generic fallback when none matched. -/
def getErrorSuggestions (msg op : List Char) : List (List Char) :=
  if (errorSuggestionCandidates msg op).length > 0 then
    errorSuggestionCandidates msg op
  else
    [("Check parameters and try again").toList]

/-- Failure response built in the `catch` of `executeAnalyticsOperation`.
Every error thrown inside the `try` is a plain `new Error(...)`, so
`error.constructor.name` is `"Error"`. -/
def failureResponse (op msg : List Char) : AnalyticsResponse :=
  ⟨false, op, none, false, none, none, none, none,
   some ⟨msg, ("Error").toList⟩, getErrorSuggestions msg op⟩

/-- Full outcome of one `executeAnalyticsOperation` call. -/
structure ExecOutcome where
  resp : AnalyticsResponse
  store : S3Store
  dbCalls : List (List Char)

/-- Embedding of `AnalyticsService.executeAnalyticsOperation`: dispatch,
then size routing on success, or the catch-all failure response. -/
def executeAnalyticsOperation (env : QueryEnv) (store : S3Store) (now : Nat)
    (op : List Char) (p : Params) : ExecOutcome :=
  match dispatchOperation env op p with
  | (Except.ok result, calls) =>
    let rs := routeResult store result op now
    ⟨rs.1, rs.2, calls⟩
  | (Except.error msg, calls) => ⟨failureResponse op msg, store, calls⟩

/-- The `POST /analytics` branch of `handleApiGatewayEvent`: the operation
result, whatever its `success` flag, is serialized with HTTP status 200. -/
def apiGatewayAnalyticsPost (env : QueryEnv) (store : S3Store) (now : Nat)
    (op : List Char) (p : Params) : Nat × AnalyticsResponse :=
  (200, (executeAnalyticsOperation env store now op p).resp)

/-! Section: The data-processor Lambda and the job service -/

/-- Embedding of the data-processor Lambda handler's `event.query` branch
(`src/ingestion/data-processor.js`): a caller-supplied query is sent to
`pool.query` directly, with no validator; without a query the handler
runs only fixed SQL (second component: caller-supplied texts executed). -/
def dataProcessorHandler (exec : List Char → List Row)
    (query : Option (List Char)) : (Nat × List Row) × List (List Char) :=
  match query with
  | some q => ((200, exec q), [q])
  | none => ((200, []), [])

/-- Job record held in the analytics DynamoDB table (the fields other
than `status` are opaque name/value pairs). -/
structure JobRecord where
  status : List Char
  fields : List (List Char × List Char)
deriving DecidableEq

/-- The analytics table keyed by job id. -/
abbrev JobStore := List (List Char × JobRecord)

/-- Token separators of an `UpdateExpression` (space and comma). -/
def isTokenSep (c : Char) : Bool := c = ' ' || c = ','

/-- Tokenizer accumulator for `UpdateExpression` text. -/
def tokenizeAux : List Char → List Char → List (List Char)
  | [], cur => if cur = [] then [] else [cur.reverse]
  | c :: rest, cur =>
    if isTokenSep c then
      if cur = [] then tokenizeAux rest []
      else cur.reverse :: tokenizeAux rest []
    else tokenizeAux rest (c :: cur)

/-- Split `UpdateExpression` text into tokens on spaces and commas. -/
def tokenize (s : List Char) : List (List Char) := tokenizeAux s []

/-- Update-expression clause keywords, reserved by DynamoDB: a bare
`SET`/`REMOVE`/`ADD`/`DELETE` cannot appear as an attribute-path
operand. -/
def isUpdateReserved (w : List Char) : Bool :=
  w = ("SET").toList || w = ("REMOVE").toList ||
  w = ("ADD").toList || w = ("DELETE").toList

/-- ASCII letter test. -/
def isAlphaChar (c : Char) : Bool :=
  (65 ≤ c.toNat && c.toNat ≤ 90) || (97 ≤ c.toNat && c.toNat ≤ 122)

/-- Valid attribute-path operand of a `SET` assignment: a `#` placeholder
or a name that is not a reserved keyword. -/
def isPathToken (w : List Char) : Bool :=
  match w with
  | [] => false
  | c :: _ => c = '#' || (isAlphaChar c && !isUpdateReserved w)

/-- Valid expression-attribute-value operand: a `:` placeholder. -/
def isValueToken (w : List Char) : Bool :=
  match w with
  | [] => false
  | c :: _ => c = ':'

/-- Comma-separated `path = :value` assignments of a `SET` clause. -/
def validAssigns : List (List Char) → Bool
  | [] => false
  | p :: rest =>
    isPathToken p &&
      match rest with
      | eq :: v :: rest2 =>
        eq = ("=").toList && isValueToken v &&
          (rest2.isEmpty || validAssigns rest2)
      | _ => false

/-- DynamoDB's documented `UpdateExpression` grammar, restricted to the
fragment this code base exercises: one `SET` clause of comma-separated
`path = :value` assignments, where a path operand is a `#` placeholder or
an unreserved name.  `SET SET #status = :status` is invalid here exactly
as the real service rejects it (the second `SET` is a reserved keyword in
operand position). -/
def dynamoValidUpdateExpression (s : List Char) : Bool :=
  match tokenize s with
  | [] => false
  | kw :: rest => kw = ("SET").toList && validAssigns rest

/-- Join with `, `, as `Array.prototype.join(', ')` does. -/
def joinCommaSpace : List (List Char) → List Char
  | [] => []
  | [x] => x
  | x :: y :: t => x ++ (", ").toList ++ joinCommaSpace (y :: t)

/-- The `UpdateExpression` text `JobService.updateJobStatus` builds: the
code seeds `updateExpressions` with the full clause
`SET #status = :status` and then writes
`` UpdateExpression: `SET ${updateExpressions.join(', ')}` ``, prefixing
a second `SET` — the result is `SET SET #status = :status[, k = :k ...]`
with the `SET` keyword duplicated. -/
def buildUpdateExpression (extraKeys : List (List Char)) : List Char :=
  ("SET ").toList ++ joinCommaSpace
    ((("SET #status = :status").toList)
      :: extraKeys.map (fun k => k ++ (" = :").toList ++ k))

/-- Write semantics of a well-formed status `UpdateItem`: set `status`
(and the additional fields) unconditionally, upserting when the job id is
absent.  Only reachable through a valid `UpdateExpression`. -/
def dynamoApplySet : JobStore → List Char → List Char →
    List (List Char × List Char) → JobStore
  | [], jobId, status, extra => [(jobId, ⟨status, extra⟩)]
  | (k, r) :: t, jobId, status, extra =>
    if jobId = k then (k, ⟨status, extra ++ r.fields⟩) :: t
    else (k, r) :: dynamoApplySet t jobId status extra

/-- DynamoDB `UpdateItem`: the request is validated before anything is
written — a malformed `UpdateExpression` is rejected with a
`ValidationException` and the table is untouched; a valid one performs
the unconditional upsert (the command carries no condition
expression). -/
def dynamoUpdateItem (store : JobStore) (jobId : List Char) (expr : List Char)
    (status : List Char) (extra : List (List Char × List Char)) :
    Except (List Char) JobStore :=
  if dynamoValidUpdateExpression expr = true then
    Except.ok (dynamoApplySet store jobId status extra)
  else
    Except.error (("ValidationException").toList)

/-- Embedding of `JobService.updateJobStatus`: it sends an `UpdateItem`
whose `UpdateExpression` is the malformed `SET SET #status = :status`
built above (it also double-marshalls the already-wrapped `{S: status}`
attribute values, which never matters because the request is rejected at
expression parsing).  Every call therefore returns a
`ValidationException` and leaves the stored record unchanged. -/
def updateJobStatus (store : JobStore) (jobId status : List Char)
    (additionalData : List (List Char × List Char)) :
    Except (List Char) JobStore :=
  dynamoUpdateItem store jobId
    (buildUpdateExpression (additionalData.map Prod.fst)) status additionalData

/-- Embedding of `JobService.getJob`. -/
def getJob : JobStore → List Char → Option JobRecord
  | [], _ => none
  | (k, r) :: t, jobId => if jobId = k then some r else getJob t jobId

/-- Status values the Step Functions workflow
(`AnalyticsJobStateMachine` in `lib/step-functions-stack.js`) ever passes
to the job service: `running`, then `completed` on either result-size
branch.  The state machine declares no failure branch. -/
def stepFunctionsStatusWrites : List (List Char) :=
  [("running").toList, ("completed").toList, ("completed").toList]

/-- Row set used by the C8 counterexample: one row whose value is three
million copies of `é` (1 UTF-16 code unit, 2 UTF-8 bytes each). -/
def c8Row : List Row := [[(("a").toList, List.replicate 3000000 'é')]]

/-! Helper lemmas. -/

@[simp] theorem utf16Len_nil : utf16Len [] = 0 := rfl

@[simp] theorem utf16Len_cons (c : Char) (t : List Char) :
    utf16Len (c :: t) = charUtf16 c + utf16Len t := rfl

@[simp] theorem utf8Len_nil : utf8Len [] = 0 := rfl

@[simp] theorem utf8Len_cons (c : Char) (t : List Char) :
    utf8Len (c :: t) = charUtf8 c + utf8Len t := rfl

@[simp] theorem utf16Len_append (a b : List Char) :
    utf16Len (a ++ b) = utf16Len a + utf16Len b := by
  induction a with
  | nil => simp
  | cons c t ih => simp [ih]; omega

@[simp] theorem utf8Len_append (a b : List Char) :
    utf8Len (a ++ b) = utf8Len a + utf8Len b := by
  induction a with
  | nil => simp
  | cons c t ih => simp [ih]; omega

@[simp] theorem utf16Len_replicate (n : Nat) (c : Char) :
    utf16Len (List.replicate n c) = n * charUtf16 c := by
  induction n with
  | zero => simp
  | succ m ih => simp [List.replicate_succ, ih]; ring

@[simp] theorem utf8Len_replicate (n : Nat) (c : Char) :
    utf8Len (List.replicate n c) = n * charUtf8 c := by
  induction n with
  | zero => simp
  | succ m ih => simp [List.replicate_succ, ih]; ring

theorem charUtf16_le_charUtf8 (c : Char) : charUtf16 c ≤ charUtf8 c := by
  unfold charUtf16 charUtf8
  split_ifs <;> omega

theorem utf16Len_le_utf8Len (l : List Char) : utf16Len l ≤ utf8Len l := by
  induction l with
  | nil => simp
  | cons c t ih =>
    have := charUtf16_le_charUtf8 c
    simp
    omega

theorem natToCharsAux_eq_spec :
    ∀ (fuel n : Nat) (acc : List Char), n < fuel →
      natToCharsAux fuel n acc = natToCharsSpec n ++ acc := by
  intro fuel
  induction fuel with
  | zero => intro n acc h; omega
  | succ m ih =>
    intro n acc h
    by_cases h10 : n < 10
    · rw [natToCharsAux, if_pos h10, natToCharsSpec, if_pos h10]
      simp
    · rw [natToCharsAux, if_neg h10, natToCharsSpec, if_neg h10]
      have hlt : n / 10 < m := by
        have h1 : n / 10 < n := Nat.div_lt_self (by omega) (by omega)
        omega
      rw [ih (n / 10) (digitChar (n % 10) :: acc) hlt]
      simp

theorem natToChars_eq_spec (n : Nat) : natToChars n = natToCharsSpec n := by
  rw [natToChars, natToCharsAux_eq_spec (n + 1) n [] (by omega)]
  simp

theorem digitChar_toNat (d : Nat) (h : d < 10) : (digitChar d).toNat = 48 + d := by
  interval_cases d <;> decide

theorem charsVal_natToCharsSpec (n : Nat) : charsVal (natToCharsSpec n) = n := by
  induction n using Nat.strong_induction_on with
  | _ n ih =>
    by_cases h10 : n < 10
    · rw [natToCharsSpec, if_pos h10]
      simp [charsVal, digitChar_toNat n h10]
    · rw [natToCharsSpec, if_neg h10]
      have hlt : n / 10 < n := Nat.div_lt_self (by omega) (by omega)
      have hmod : n % 10 < 10 := Nat.mod_lt _ (by omega)
      have hrec := ih (n / 10) hlt
      simp only [charsVal, List.foldl_append, List.foldl_cons, List.foldl_nil] at hrec ⊢
      rw [hrec, digitChar_toNat (n % 10) hmod]
      omega

theorem natToChars_injective (a b : Nat) (h : natToChars a = natToChars b) : a = b := by
  have ha := charsVal_natToCharsSpec a
  have hb := charsVal_natToCharsSpec b
  rw [← natToChars_eq_spec] at ha hb
  rw [h] at ha
  omega

theorem natToCharsSpec_mem_digits (n : Nat) :
    ∀ c ∈ natToCharsSpec n, c ∈ ("0123456789").toList := by
  induction n using Nat.strong_induction_on with
  | _ n ih =>
    intro c hc
    by_cases h10 : n < 10
    · rw [natToCharsSpec, if_pos h10] at hc
      simp at hc
      subst hc
      interval_cases n <;> decide
    · rw [natToCharsSpec, if_neg h10] at hc
      have hlt : n / 10 < n := Nat.div_lt_self (by omega) (by omega)
      have hmod : n % 10 < 10 := Nat.mod_lt _ (by omega)
      rcases List.mem_append.mp hc with h1 | h2
      · exact ih (n / 10) hlt c h1
      · simp at h2
        subst h2
        set m := n % 10 with hm
        interval_cases m <;> decide

theorem natToChars_mem_digits (n : Nat) :
    ∀ c ∈ natToChars n, c ∈ ("0123456789").toList := by
  rw [natToChars_eq_spec]
  exact natToCharsSpec_mem_digits n

theorem slash_not_mem_natToChars (n : Nat) : '/' ∉ natToChars n := by
  intro h
  have := natToChars_mem_digits n '/' h
  revert this
  decide

theorem dash_not_mem_natToChars (n : Nat) : '-' ∉ natToChars n := by
  intro h
  have := natToChars_mem_digits n '-' h
  revert this
  decide

theorem splitOnChar_ne_nil (c : Char) (l : List Char) : splitOnChar c l ≠ [] := by
  cases l with
  | nil => simp [splitOnChar]
  | cons x xs =>
    rw [splitOnChar]
    split
    · simp
    · split <;> simp

theorem splitOnChar_of_not_mem (c : Char) (l : List Char) (h : c ∉ l) :
    splitOnChar c l = [l] := by
  induction l with
  | nil => rfl
  | cons x xs ih =>
    have hx : x ≠ c := fun he => h (by simp [he])
    have hxs : c ∉ xs := fun hm => h (by simp [hm])
    rw [splitOnChar]
    simp only [if_neg hx]
    rw [ih hxs]

theorem splitOnChar_length_two (c : Char) (l : List Char) (h : c ∈ l) :
    2 ≤ (splitOnChar c l).length := by
  induction l with
  | nil => simp at h
  | cons x xs ih =>
    by_cases hx : x = c
    · rw [splitOnChar]
      simp only [if_pos hx]
      have hne := splitOnChar_ne_nil c xs
      have hlen : 1 ≤ (splitOnChar c xs).length := by
        cases hsp : splitOnChar c xs with
        | nil => exact absurd hsp hne
        | cons a b => simp
      simp
      omega
    · have hxs : c ∈ xs := by
        rcases List.mem_cons.mp h with h1 | h2
        · exact absurd h1.symm hx
        · exact h2
      rw [splitOnChar]
      simp only [if_neg hx]
      cases hsp : splitOnChar c xs with
      | nil => exact absurd hsp (splitOnChar_ne_nil c xs)
      | cons a b =>
        have := ih hxs
        rw [hsp] at this
        simp at this ⊢
        omega

theorem lastPart_cons_of_ne_nil (x : List Char) (t : List (List Char)) (h : t ≠ []) :
    lastPart (x :: t) = lastPart t := by
  cases t with
  | nil => exact absurd rfl h
  | cons y t2 => rfl

theorem lastPart_splitOnChar (c : Char) (pre tail : List Char) (h : c ∉ tail) :
    lastPart (splitOnChar c (pre ++ c :: tail)) = tail := by
  induction pre with
  | nil =>
    simp only [List.nil_append]
    rw [splitOnChar]
    simp only [if_pos rfl]
    rw [splitOnChar_of_not_mem c tail h]
    rfl
  | cons x pre2 ih =>
    simp only [List.cons_append]
    rw [splitOnChar]
    have hmem : c ∈ pre2 ++ c :: tail := by simp
    by_cases hx : x = c
    · simp only [if_pos hx]
      rw [lastPart_cons_of_ne_nil _ _ (splitOnChar_ne_nil c _)]
      exact ih
    · simp only [if_neg hx]
      cases hsp : splitOnChar c (pre2 ++ c :: tail) with
      | nil => exact absurd hsp (splitOnChar_ne_nil c _)
      | cons h2 t2 =>
        have hlen := splitOnChar_length_two c _ hmem
        rw [hsp] at hlen
        simp at hlen
        have ht2 : t2 ≠ [] := by
          intro he
          rw [he] at hlen
          simp at hlen
        rw [hsp] at ih
        rw [lastPart_cons_of_ne_nil _ _ ht2] at ih ⊢
        exact ih

theorem escapeList_replicate (n : Nat) (c : Char) (h : escapeChar c = [c]) :
    escapeList (List.replicate n c) = List.replicate n c := by
  induction n with
  | zero => rfl
  | succ m ih => simp [List.replicate_succ, escapeList, h, ih]

theorem utf8Len_joinComma_replicate (n : Nat) (x : List Char) :
    utf8Len (joinComma (List.replicate (n + 1) x))
      = utf8Len x + n * (1 + utf8Len x) := by
  induction n with
  | zero => simp [joinComma]
  | succ m ih =>
    rw [List.replicate_succ, List.replicate_succ]
    have hj : joinComma (x :: x :: List.replicate m x)
        = x ++ ',' :: joinComma (x :: List.replicate m x) := rfl
    rw [hj]
    rw [List.replicate_succ] at ih
    have hc : charUtf8 ',' = 1 := by decide
    simp only [utf8Len_append, utf8Len_cons, ih, hc]
    ring

/-! Claim theorems. -/

/-- C10: every failure response produced by `executeAnalyticsOperation`
carries a non-empty suggestions array — `getErrorSuggestions` returns at
least one suggestion for every error message and operation, falling back
to a generic suggestion when no specific one matches. -/
theorem error_suggestions_nonempty :
    (∀ msg op : List Char, getErrorSuggestions msg op ≠ []) ∧
    (∀ (env : QueryEnv) (store : S3Store) (now : Nat) (op : List Char) (p : Params),
      (executeAnalyticsOperation env store now op p).resp.success = false →
      (executeAnalyticsOperation env store now op p).resp.suggestions ≠ []) := by
  have h1 : ∀ msg op : List Char, getErrorSuggestions msg op ≠ [] := by
    intro msg op
    unfold getErrorSuggestions
    by_cases h : (errorSuggestionCandidates msg op).length > 0
    · rw [if_pos h]
      exact List.ne_nil_of_length_pos h
    · rw [if_neg h]
      simp
  refine ⟨h1, ?_⟩
  intro env store now op p hfail
  unfold executeAnalyticsOperation at hfail ⊢
  cases hd : dispatchOperation env op p with
  | mk r calls =>
    cases r with
    | ok result =>
      rw [hd] at hfail
      exfalso
      change (routeResult store result op now).1.success = false at hfail
      unfold routeResult at hfail
      split at hfail
      · simp [saveLargeResultToS3] at hfail
      · simp [inlineResponse] at hfail
    | error msg =>
      exact h1 msg op

/-- Witness for C10: the failure response of an unknown operation has a
non-empty suggestions list. -/
theorem error_suggestions_nonempty_witness :
    (executeAnalyticsOperation trivialEnv [] 0 (("invalid_operation_x").toList)
      noParams).resp.suggestions ≠ [] :=
  error_suggestions_nonempty.2 trivialEnv [] 0 (("invalid_operation_x").toList)
    noParams (by decide)

/-- C7 counterexample: the claimed write mechanism — forward transitions
`submitted → running → completed/failed` writable, backward moves
alone rejected — does not exist.  `updateJobStatus` builds the malformed
`UpdateExpression` `SET SET #status = :status` (the well-formed
`SET #status = :status` would validate, so the failure is precisely the
duplicated `SET`), and DynamoDB rejects every request: the forward
lifecycle write `submitted → running` fails with a `ValidationException`
and writes nothing, and a backward `completed → running` call fails with
the identical error, not through any transition check. -/
theorem updateJobStatus_forward_write_fails_cex :
    buildUpdateExpression [] = ("SET SET #status = :status").toList
    ∧ dynamoValidUpdateExpression (("SET #status = :status").toList) = true
    ∧ dynamoValidUpdateExpression (buildUpdateExpression []) = false
    ∧ updateJobStatus [(("j1").toList, ⟨("submitted").toList, []⟩)]
        (("j1").toList) (("running").toList) []
      = Except.error (("ValidationException").toList)
    ∧ updateJobStatus [(("j1").toList, ⟨("completed").toList, []⟩)]
        (("j1").toList) (("running").toList) []
      = Except.error (("ValidationException").toList) :=
  ⟨rfl, rfl, rfl, rfl, rfl⟩

/-- C7 amended: `updateJobStatus` contains no transition-checking logic
and, as written, can never write at all — for every store, job id,
target status and additional data, the built `UpdateExpression` is
invalid (the `SET` prefix is duplicated) and the call returns a
`ValidationException` without producing a new store, so the stored
record never changes: backward calls are "rejected" only because every
call fails, and the forward transitions
`submitted → running → {completed | failed}` cannot be written either. -/
theorem updateJobStatus_always_validation_error :
    (∀ keys : List (List Char),
      dynamoValidUpdateExpression (buildUpdateExpression keys) = false)
    ∧ (∀ (store : JobStore) (jobId status : List Char)
        (extra : List (List Char × List Char)),
      updateJobStatus store jobId status extra
        = Except.error (("ValidationException").toList)) := by
  have hval : ∀ keys : List (List Char),
      dynamoValidUpdateExpression (buildUpdateExpression keys) = false := by
    intro keys
    cases keys with
    | nil => rfl
    | cons k t => rfl
  refine ⟨hval, ?_⟩
  intro store jobId status extra
  unfold updateJobStatus dynamoUpdateItem
  rw [hval]
  simp

/-- C4 counterexample: the query text `DROP` contains the keyword `DROP`
(case-insensitively) yet passes `validateCustomQuery` — the regexes
require trailing context (`DROP\s+`), so the claim's "any query containing
DROP is rejected" is false, and the text reaches the executor. -/
theorem forbidden_keyword_no_context_cex :
    specContainsCI (("drop").toList) (("DROP").toList) = true
    ∧ validateCustomQuery (("DROP").toList) = Except.ok ()
    ∧ (executeCustomComplexQuery (fun _ _ => []) (("DROP").toList) []).2
      = [("DROP").toList] :=
  ⟨by decide, rfl, rfl⟩

/-- C4 amended: any query text matching one of the code's forbidden
regexes — `DROP\s+`, `DELETE\s+FROM`, `TRUNCATE\s+`, `INSERT\s+INTO`,
`UPDATE\s+\w+\s+SET`, `CREATE\s+`, `ALTER\s+`, `GRANT\s+`, `REVOKE\s+`,
case-insensitive — is rejected by `executeCustomComplexQuery` with the
error message `Query contains forbidden operations` (a plain `Error`, the
code has no `ForbiddenQueryError` class) before any database call is
made. -/
theorem forbidden_pattern_query_rejected :
    ∀ (exec : List Char → List (List Char) → List Row) (q : List Char)
      (ps : List (List Char)),
      queryMatchesForbidden q = true →
      executeCustomComplexQuery exec q ps
        = (Except.error (("Query contains forbidden operations").toList), []) := by
  intro exec q ps h
  unfold executeCustomComplexQuery validateCustomQuery
  rw [if_pos h]

/-- Witness for the amended C4: `DROP TABLE x` matches `DROP\s+` and is
rejected with no database call. -/
theorem forbidden_pattern_query_rejected_witness :
    executeCustomComplexQuery (fun _ _ => []) (("DROP TABLE x").toList) []
      = (Except.error (("Query contains forbidden operations").toList), []) :=
  forbidden_pattern_query_rejected (fun _ _ => []) (("DROP TABLE x").toList) []
    (by decide)

/-- C5 counterexample: the data-processor Lambda executes the
caller-supplied `event.query` directly — here a query that the sandbox
validator would reject reaches the executor with no validation, so the
system does have an entry point executing caller-supplied SQL
unvalidated. -/
theorem data_processor_unvalidated_sql_cex :
    (dataProcessorHandler (fun _ => []) (some (("DROP TABLE entities").toList))).2
      = [("DROP TABLE entities").toList]
    ∧ validateCustomQuery (("DROP TABLE entities").toList)
      = Except.error (("Query contains forbidden operations").toList) :=
  ⟨rfl, rfl⟩

/-- C5 amended: on the analytics path every caller-supplied query that
reaches the executor has passed `validateCustomQuery`, but the
data-processor Lambda's `event.query` branch executes caller-supplied SQL
directly with no validation. -/
theorem caller_sql_validation_paths :
    (∀ (exec : List Char → List (List Char) → List Row) (q : List Char)
      (ps : List (List Char)),
      (executeCustomComplexQuery exec q ps).2 ≠ [] →
      validateCustomQuery q = Except.ok ())
    ∧ (∀ (exec : List Char → List Row) (q : List Char),
      (dataProcessorHandler exec (some q)).2 = [q]) := by
  constructor
  · intro exec q ps h
    cases hv : validateCustomQuery q with
    | error e =>
      unfold executeCustomComplexQuery at h
      rw [hv] at h
      simp at h
    | ok u => cases u; rfl
  · intro exec q
    rfl

/-- Witness for the amended C5: a benign query that did reach the
executor passed validation. -/
theorem caller_sql_validation_paths_witness :
    validateCustomQuery (("SELECT 1").toList) = Except.ok () :=
  caller_sql_validation_paths.1 (fun _ _ => []) (("SELECT 1").toList) [] (by decide)

/-- C3 counterexample: the synchronous call for the unknown operation
`invalid_operation_x` returns `error.type = "Error"` (every throw is a
plain `new Error`), not `UnknownOperationError`, and the API Gateway
handler serializes the failure with HTTP status 200, not a 4xx code. -/
theorem unknown_operation_error_type_cex :
    ((executeAnalyticsOperation trivialEnv [] 0 (("invalid_operation_x").toList)
        noParams).resp.error.map ErrorInfo.etype
      ≠ some (("UnknownOperationError").toList))
    ∧ (apiGatewayAnalyticsPost trivialEnv [] 0 (("invalid_operation_x").toList)
        noParams).1 = 200 :=
  ⟨by decide, rfl⟩

/-- C3 amended: for every operation name outside the registry the
synchronous call returns `success: false` with error message
`Unknown analytics operation: {name}` and error type `"Error"` (there is
no `UnknownOperationError` class), and the API Gateway handler delivers
this failure with HTTP status 200 (the catch inside
`executeAnalyticsOperation` swallows the throw, so the 400 branch of
`handleApiGatewayEvent` is not reached). -/
theorem unknown_operation_response :
    ∀ (env : QueryEnv) (store : S3Store) (now : Nat) (op : List Char) (p : Params),
      op ∉ registryNames →
      (executeAnalyticsOperation env store now op p).resp.success = false
      ∧ (executeAnalyticsOperation env store now op p).resp.error
        = some ⟨("Unknown analytics operation: ").toList ++ op, ("Error").toList⟩
      ∧ (apiGatewayAnalyticsPost env store now op p).1 = 200 := by
  intro env store now op p h
  simp only [registryNames, List.mem_cons, List.mem_singleton, not_or] at h
  obtain ⟨h1, h2, h3, h4, h5, h6, h7, h8, h9, h10, -⟩ := h
  have hd : dispatchOperation env op p
      = (Except.error ((("Unknown analytics operation: ").toList ++ op)), []) := by
    unfold dispatchOperation
    rw [if_neg h1, if_neg h2, if_neg h3, if_neg h4, if_neg h5, if_neg h6,
        if_neg h7, if_neg h8, if_neg h9, if_neg h10]
  refine ⟨?_, ?_, rfl⟩
  · unfold executeAnalyticsOperation
    rw [hd]
    rfl
  · unfold executeAnalyticsOperation
    rw [hd]
    rfl

/-- Witness for the amended C3, at the unknown name
`invalid_operation_x`. -/
theorem unknown_operation_response_witness :
    (executeAnalyticsOperation trivialEnv [] 0 (("invalid_operation_x").toList)
      noParams).resp.success = false
    ∧ (executeAnalyticsOperation trivialEnv [] 0 (("invalid_operation_x").toList)
      noParams).resp.error
      = some ⟨("Unknown analytics operation: ").toList ++ ("invalid_operation_x").toList,
          ("Error").toList⟩
    ∧ (apiGatewayAnalyticsPost trivialEnv [] 0 (("invalid_operation_x").toList)
      noParams).1 = 200 :=
  unknown_operation_response trivialEnv [] 0 (("invalid_operation_x").toList)
    noParams (by decide)

/-- C6 counterexample: `custom_complex_query` is the only registered
operation that enforces a required parameter; invoking it without `query`
yields a failure whose error type is `"Error"`, not the claimed
`ValidationError`. -/
theorem missing_required_param_error_type_cex :
    (executeAnalyticsOperation trivialEnv [] 0 (("custom_complex_query").toList)
        noParams).resp.error.map ErrorInfo.etype = some (("Error").toList)
    ∧ (("Error").toList : List Char) ≠ (("ValidationError").toList) :=
  ⟨rfl, by decide⟩

/-- C6 amended: invoking `custom_complex_query` (the sole operation with
a required parameter — there is no registry of required/default
parameters, defaults being inlined per branch) without `query` returns a
failure response with message `Custom query is required for this
operation` and type `"Error"`, making no database call; and the Step
Functions workflow never writes a `failed` status (it has no failure
branch), so the job is not moved to `Failed`. -/
theorem missing_custom_query_behavior :
    ∀ (env : QueryEnv) (store : S3Store) (now : Nat) (p : Params),
      p.query = none →
      (executeAnalyticsOperation env store now (("custom_complex_query").toList)
        p).resp.success = false
      ∧ (executeAnalyticsOperation env store now (("custom_complex_query").toList)
        p).resp.error
        = some ⟨("Custom query is required for this operation").toList, ("Error").toList⟩
      ∧ (executeAnalyticsOperation env store now (("custom_complex_query").toList)
        p).dbCalls = []
      ∧ ("failed").toList ∉ stepFunctionsStatusWrites := by
  intro env store now p hq
  have hd : dispatchOperation env (("custom_complex_query").toList) p
      = (Except.error (("Custom query is required for this operation").toList), []) := by
    unfold dispatchOperation
    rw [if_neg (by decide), if_neg (by decide), if_neg (by decide), if_neg (by decide),
        if_neg (by decide), if_neg (by decide), if_neg (by decide), if_neg (by decide),
        if_pos rfl, hq]
  refine ⟨?_, ?_, ?_, by decide⟩ <;> (unfold executeAnalyticsOperation; rw [hd]) <;> (try rfl)

/-- Witness for the amended C6, with empty parameters. -/
theorem missing_custom_query_behavior_witness :
    (executeAnalyticsOperation trivialEnv [] 0 (("custom_complex_query").toList)
      noParams).resp.success = false
    ∧ (executeAnalyticsOperation trivialEnv [] 0 (("custom_complex_query").toList)
      noParams).resp.error
      = some ⟨("Custom query is required for this operation").toList, ("Error").toList⟩
    ∧ (executeAnalyticsOperation trivialEnv [] 0 (("custom_complex_query").toList)
      noParams).dbCalls = []
    ∧ ("failed").toList ∉ stepFunctionsStatusWrites :=
  missing_custom_query_behavior trivialEnv [] 0 noParams rfl

/-- C1: a result of at most 1000 rows whose serialized size is at most
5,000,000 bytes is returned inline (`data` populated, no `s3Url`); a
result of 1001 rows is spilled to S3 and answered with the
`s3Url`/`downloadUrl` envelope and no inline data; at exactly 1000 rows
(size within bound) the result stays inline. -/
theorem result_routing_thresholds :
    ∀ (store : S3Store) (result : List Row) (op : List Char) (now : Nat),
      (result.length ≤ 1000 → utf8Len (stringifyRows result) ≤ 5000000 →
        (routeResult store result op now).1.data = some result
        ∧ (routeResult store result op now).1.s3Url = none
        ∧ (routeResult store result op now).1.largeResult = false)
      ∧ (result.length = 1001 →
        (routeResult store result op now).1.data = none
        ∧ (routeResult store result op now).1.largeResult = true
        ∧ (routeResult store result op now).1.s3Url
          = some (("s3://").toList ++ resultsBucket ++ '/' :: resultKey op now))
      ∧ (result.length = 1000 → utf8Len (stringifyRows result) ≤ 5000000 →
        (routeResult store result op now).1.data = some result)
      ∧ (∀ (env : QueryEnv) (p : Params) (calls : List (List Char)),
        dispatchOperation env op p = (Except.ok result, calls) →
        (executeAnalyticsOperation env store now op p).resp
          = (routeResult store result op now).1) := by
  intro store result op now
  refine ⟨?_, ?_, ?_, ?_⟩
  · intro hrow hbyte
    have h16 : utf16Len (stringifyRows result) ≤ 5000000 :=
      le_trans (utf16Len_le_utf8Len _) hbyte
    have hcond : ¬(result.length > 1000 ∨ utf16Len (stringifyRows result) > 5000000) := by
      push_neg
      exact ⟨hrow, h16⟩
    unfold routeResult
    rw [if_neg hcond]
    exact ⟨rfl, rfl, rfl⟩
  · intro hrow
    have hcond : result.length > 1000 ∨ utf16Len (stringifyRows result) > 5000000 :=
      Or.inl (by omega)
    unfold routeResult
    rw [if_pos hcond]
    exact ⟨rfl, rfl, rfl⟩
  · intro hrow hbyte
    have h16 : utf16Len (stringifyRows result) ≤ 5000000 :=
      le_trans (utf16Len_le_utf8Len _) hbyte
    have hcond : ¬(result.length > 1000 ∨ utf16Len (stringifyRows result) > 5000000) := by
      push_neg
      exact ⟨by omega, h16⟩
    unfold routeResult
    rw [if_neg hcond]
    rfl
  · intro env p calls hd
    unfold executeAnalyticsOperation
    rw [hd]

/-- Witness for C1: a one-row result stays inline; 1001 empty rows are
spilled; 1000 empty rows stay inline; an `executeAnalyticsOperation` call
whose dispatch succeeds answers with the routed response. -/
theorem result_routing_thresholds_witness :
    ((routeResult [] ([[(("a").toList, ("b").toList)]]) (("count_analysis").toList)
        0).1.data = some ([[(("a").toList, ("b").toList)]]))
    ∧ ((routeResult [] (List.replicate 1001 ([] : Row)) (("count_analysis").toList)
        0).1.largeResult = true)
    ∧ ((routeResult [] (List.replicate 1000 ([] : Row)) (("count_analysis").toList)
        0).1.data = some (List.replicate 1000 ([] : Row)))
    ∧ ((executeAnalyticsOperation trivialEnv [] 0 (("database_info").toList)
        noParams).resp
      = (routeResult [] [] (("database_info").toList) 0).1) := by
  have hbyte : utf8Len (stringifyRows (List.replicate 1000 ([] : Row))) ≤ 5000000 := by
    unfold stringifyRows
    rw [List.map_replicate]
    have e : (1000 : Nat) = 999 + 1 := by norm_num
    rw [e]
    simp only [utf8Len_cons, utf8Len_append, utf8Len_nil]
    rw [utf8Len_joinComma_replicate 999 (stringifyRow [])]
    have h2 : utf8Len (stringifyRow []) = 2 := by decide
    have hl : charUtf8 '[' = 1 := by decide
    have hr : charUtf8 ']' = 1 := by decide
    rw [h2, hl, hr]
    norm_num
  refine ⟨?_, ?_, ?_, ?_⟩
  · exact ((result_routing_thresholds [] _ _ 0).1 (by decide) (by decide)).1
  · exact ((result_routing_thresholds [] _ _ 0).2.1 (by rw [List.length_replicate])).2.1
  · exact (result_routing_thresholds [] _ _ 0).2.2.1 (by rw [List.length_replicate]) hbyte
  · exact (result_routing_thresholds [] [] (("database_info").toList) 0).2.2.2
      trivialEnv noParams [] rfl

/-- C8 counterexample: a single-row result whose serialization weighs
6,000,010 UTF-8 bytes (over the 5,000,000-byte threshold) but only
3,000,010 UTF-16 code units stays inline — the code compares
`JSON.stringify(result).length`, JavaScript string length in UTF-16 code
units, not serialized UTF-8 bytes. -/
theorem spill_threshold_not_utf8_cex :
    c8Row.length ≤ 1000
    ∧ 5000000 < utf8Len (stringifyRows c8Row)
    ∧ (routeResult [] c8Row (("x").toList) 0).1.largeResult = false
    ∧ (routeResult [] c8Row (("x").toList) 0).1.data = some c8Row := by
  have hesc : escapeList (List.replicate 3000000 'é') = List.replicate 3000000 'é' :=
    escapeList_replicate 3000000 'é' (by decide)
  have e16a : charUtf16 '"' = 1 := by decide
  have e16b : charUtf16 'é' = 1 := by decide
  have e16c : charUtf16 ':' = 1 := by decide
  have e16d : charUtf16 '{' = 1 := by decide
  have e16e : charUtf16 '}' = 1 := by decide
  have e16f : charUtf16 '[' = 1 := by decide
  have e16g : charUtf16 ']' = 1 := by decide
  have e8a : charUtf8 '"' = 1 := by decide
  have e8b : charUtf8 'é' = 2 := by decide
  have e8c : charUtf8 ':' = 1 := by decide
  have e8d : charUtf8 '{' = 1 := by decide
  have e8e : charUtf8 '}' = 1 := by decide
  have e8f : charUtf8 '[' = 1 := by decide
  have e8g : charUtf8 ']' = 1 := by decide
  have hq16 : utf16Len (quoteStr (List.replicate 3000000 'é')) = 3000002 := by
    show utf16Len ('"' :: (escapeList (List.replicate 3000000 'é') ++ ['"'])) = 3000002
    rw [hesc, utf16Len_cons, utf16Len_append, utf16Len_replicate, utf16Len_cons,
        utf16Len_nil, e16a, e16b]
  have hq8 : utf8Len (quoteStr (List.replicate 3000000 'é')) = 6000002 := by
    show utf8Len ('"' :: (escapeList (List.replicate 3000000 'é') ++ ['"'])) = 6000002
    rw [hesc, utf8Len_cons, utf8Len_append, utf8Len_replicate, utf8Len_cons,
        utf8Len_nil, e8a, e8b]
  have hk16 : utf16Len (quoteStr (("a").toList)) = 3 := by decide
  have hk8 : utf8Len (quoteStr (("a").toList)) = 3 := by decide
  have hf16 : utf16Len (stringifyField ((("a").toList, List.replicate 3000000 'é')))
      = 3000006 := by
    show utf16Len (quoteStr (("a").toList)
      ++ ':' :: quoteStr (List.replicate 3000000 'é')) = 3000006
    rw [utf16Len_append, utf16Len_cons, hq16, hk16, e16c]
  have hf8 : utf8Len (stringifyField ((("a").toList, List.replicate 3000000 'é')))
      = 6000006 := by
    show utf8Len (quoteStr (("a").toList)
      ++ ':' :: quoteStr (List.replicate 3000000 'é')) = 6000006
    rw [utf8Len_append, utf8Len_cons, hq8, hk8, e8c]
  have hr16 : utf16Len (stringifyRow ([(("a").toList, List.replicate 3000000 'é')]))
      = 3000008 := by
    show utf16Len ('{' :: (stringifyField ((("a").toList, List.replicate 3000000 'é'))
      ++ ['}'])) = 3000008
    rw [utf16Len_cons, utf16Len_append, hf16, utf16Len_cons, utf16Len_nil, e16d, e16e]
  have hr8 : utf8Len (stringifyRow ([(("a").toList, List.replicate 3000000 'é')]))
      = 6000008 := by
    show utf8Len ('{' :: (stringifyField ((("a").toList, List.replicate 3000000 'é'))
      ++ ['}'])) = 6000008
    rw [utf8Len_cons, utf8Len_append, hf8, utf8Len_cons, utf8Len_nil, e8d, e8e]
  have hc16 : utf16Len (stringifyRows c8Row) = 3000010 := by
    show utf16Len ('[' :: (stringifyRow ([(("a").toList, List.replicate 3000000 'é')])
      ++ [']'])) = 3000010
    rw [utf16Len_cons, utf16Len_append, hr16, utf16Len_cons, utf16Len_nil, e16f, e16g]
  have hc8 : utf8Len (stringifyRows c8Row) = 6000010 := by
    show utf8Len ('[' :: (stringifyRow ([(("a").toList, List.replicate 3000000 'é')])
      ++ [']'])) = 6000010
    rw [utf8Len_cons, utf8Len_append, hr8, utf8Len_cons, utf8Len_nil, e8f, e8g]
  have hcond : ¬(c8Row.length > 1000 ∨ utf16Len (stringifyRows c8Row) > 5000000) := by
    push_neg
    refine ⟨by decide, ?_⟩
    rw [hc16]
    norm_num
  refine ⟨by decide, ?_, ?_, ?_⟩
  · rw [hc8]
    norm_num
  · unfold routeResult
    rw [if_neg hcond]
    rfl
  · unfold routeResult
    rw [if_neg hcond]
    rfl

/-- C8 amended: for results of at most 1000 rows the spill decision is
taken exactly when the UTF-16 code-unit length of the serialized row set
(JavaScript `JSON.stringify(result).length`) exceeds 5,000,000 — the
unit is UTF-16 code units, not UTF-8 bytes. -/
theorem spill_threshold_utf16_iff :
    ∀ (store : S3Store) (result : List Row) (op : List Char) (now : Nat),
      result.length ≤ 1000 →
      ((routeResult store result op now).1.largeResult = true
        ↔ 5000000 < utf16Len (stringifyRows result)) := by
  intro store result op now hrow
  unfold routeResult
  by_cases h16 : 5000000 < utf16Len (stringifyRows result)
  · rw [if_pos (Or.inr h16)]
    simp [saveLargeResultToS3, h16]
  · have hcond : ¬(result.length > 1000 ∨ utf16Len (stringifyRows result) > 5000000) := by
      push_neg
      exact ⟨hrow, by omega⟩
    rw [if_neg hcond]
    simp [inlineResponse, h16]

/-- Witness for the amended C8 on a one-row result. -/
theorem spill_threshold_utf16_iff_witness :
    ((routeResult [] ([[(("a").toList, ("b").toList)]]) (("x").toList) 0).1.largeResult
      = true)
      ↔ 5000000 < utf16Len (stringifyRows ([[(("a").toList, ("b").toList)]])) :=
  spill_threshold_utf16_iff [] ([[(("a").toList, ("b").toList)]]) (("x").toList) 0
    (by decide)

/-- C2: resolving a spilled result through `handleS3Download`, with the
key taken from the returned `downloadUrl`, reproduces exactly the
original rows — same record count, same contents, same order, no
truncation (stated for the registry operation names, the only names the
router is invoked with; none contains a `/`). -/
theorem spill_download_roundtrip :
    ∀ (store : S3Store) (result : List Row) (op : List Char) (now : Nat),
      op ∈ registryNames →
      (saveLargeResultToS3 store result op now).1.downloadUrl
        = some (("/download/").toList ++ keyTail op now)
      ∧ handleS3Download (saveLargeResultToS3 store result op now).2
          (some (keyTail op now))
        = ⟨200, true, some result, some result.length⟩ := by
  intro store result op now hop
  have hslash_op : '/' ∉ op := by
    have hall : ∀ o ∈ registryNames, '/' ∉ o := by decide
    exact hall op hop
  have hslash_tail : '/' ∉ keyTail op now := by
    unfold keyTail
    intro hmem
    rcases List.mem_append.mp hmem with h1 | h2
    · exact hslash_op h1
    · rcases List.mem_cons.mp h2 with h3 | h4
      · exact absurd h3 (by decide)
      · rcases List.mem_append.mp h4 with h5 | h6
        · exact slash_not_mem_natToChars now h5
        · revert h6
          decide
  have hkey : resultKey op now = ("results").toList ++ '/' :: keyTail op now := rfl
  have hlast : lastPart (splitOnChar '/' (resultKey op now)) = keyTail op now := by
    rw [hkey]
    exact lastPart_splitOnChar '/' (("results").toList) (keyTail op now) hslash_tail
  constructor
  · have hdl : (saveLargeResultToS3 store result op now).1.downloadUrl
        = some (("/download/").toList ++ lastPart (splitOnChar '/' (resultKey op now))) := rfl
    rw [hdl, hlast]
  · have hk2 : ("results/").toList ++ keyTail op now = resultKey op now := rfl
    have hget : s3Get ((resultKey op now,
          (⟨op, result, now, result.length⟩ : StoredResult)) :: store)
        (("results/").toList ++ keyTail op now) = some ⟨op, result, now, result.length⟩ := by
      unfold s3Get
      rw [if_pos hk2]
    show (match s3Get ((resultKey op now,
          (⟨op, result, now, result.length⟩ : StoredResult)) :: store)
        (("results/").toList ++ keyTail op now) with
      | some v => (⟨200, true, some v.data, some v.recordCount⟩ : DownloadResponse)
      | none => ⟨404, false, none, none⟩) = _
    rw [hget]

/-- Witness for C2 at `count_analysis`, one row, timestamp 7. -/
theorem spill_download_roundtrip_witness :
    (saveLargeResultToS3 [] ([[(("a").toList, ("b").toList)]])
        (("count_analysis").toList) 7).1.downloadUrl
      = some (("/download/").toList ++ keyTail (("count_analysis").toList) 7)
    ∧ handleS3Download (saveLargeResultToS3 [] ([[(("a").toList, ("b").toList)]])
        (("count_analysis").toList) 7).2
        (some (keyTail (("count_analysis").toList) 7))
      = ⟨200, true, some ([[(("a").toList, ("b").toList)]]), some 1⟩ :=
  spill_download_roundtrip [] ([[(("a").toList, ("b").toList)]])
    (("count_analysis").toList) 7 (by decide)

theorem append_dash_inj :
    ∀ (a c b d : List Char), '-' ∉ a → '-' ∉ c →
      a ++ '-' :: b = c ++ '-' :: d → a = c ∧ b = d := by
  intro a
  induction a with
  | nil =>
    intro c b d ha hc h
    cases c with
    | nil =>
      simp at h
      exact ⟨rfl, h⟩
    | cons y c2 =>
      simp at h
      obtain ⟨hy, -⟩ := h
      exact absurd (by rw [← hy]; exact List.mem_cons_self _ _) hc
  | cons x a2 ih =>
    intro c b d ha hc h
    cases c with
    | nil =>
      simp at h
      obtain ⟨hx, -⟩ := h
      exact absurd (by rw [hx]; exact List.mem_cons_self _ _) ha
    | cons y c2 =>
      simp at h
      obtain ⟨hxy, h2⟩ := h
      have ha2 : '-' ∉ a2 := fun hm => ha (List.mem_cons_of_mem _ hm)
      have hc2 : '-' ∉ c2 := fun hm => hc (List.mem_cons_of_mem _ hm)
      obtain ⟨he, hb⟩ := ih c2 b d ha2 hc2 h2
      exact ⟨by rw [hxy, he], hb⟩

/-- C9 counterexample: two distinct spillover invocations — same
operation, same `Date.now()` millisecond, different row sets — produce
the same storage key, and the later write shadows the earlier blob, so
previously written results can be overwritten. -/
theorem spill_key_collision_overwrite_cex :
    ((saveLargeResultToS3 [] [] (("count_analysis").toList) 7).1.s3Url
      = (saveLargeResultToS3 (saveLargeResultToS3 [] [] (("count_analysis").toList) 7).2
          ([[(("k").toList, ("v").toList)]]) (("count_analysis").toList) 7).1.s3Url)
    ∧ (([[(("k").toList, ("v").toList)]] : List Row) ≠ [])
    ∧ s3Get (saveLargeResultToS3 (saveLargeResultToS3 [] [] (("count_analysis").toList) 7).2
          ([[(("k").toList, ("v").toList)]]) (("count_analysis").toList) 7).2
        (resultKey (("count_analysis").toList) 7)
      = some ⟨("count_analysis").toList, [[(("k").toList, ("v").toList)]], 7, 1⟩ :=
  ⟨rfl, by decide, rfl⟩

/-- C9 amended: the storage key is derived from the operation name and
the `Date.now()` millisecond only — keys of two spillover invocations are
distinct exactly when the (operation, millisecond) pairs differ (for the
dash-free registry operation names); invocations sharing both write the
same key, and the later write replaces the earlier blob. -/
theorem spill_key_uniqueness :
    (∀ (op1 op2 : List Char) (n1 n2 : Nat), '-' ∉ op1 → '-' ∉ op2 →
      (resultKey op1 n1 = resultKey op2 n2 ↔ (op1 = op2 ∧ n1 = n2)))
    ∧ (∀ (store : S3Store) (r1 r2 : List Row) (op : List Char) (now : Nat),
      s3Get (saveLargeResultToS3 (saveLargeResultToS3 store r1 op now).2 r2 op now).2
        (resultKey op now) = some ⟨op, r2, now, r2.length⟩) := by
  constructor
  · intro op1 op2 n1 n2 h1 h2
    constructor
    · intro h
      unfold resultKey keyTail at h
      have h3 : op1 ++ '-' :: (natToChars n1 ++ (".json").toList)
          = op2 ++ '-' :: (natToChars n2 ++ (".json").toList) :=
        (List.append_right_inj _).mp h
      obtain ⟨hop, htail⟩ := append_dash_inj op1 op2 _ _ h1 h2 h3
      have hnum : natToChars n1 = natToChars n2 := (List.append_left_inj _).mp htail
      exact ⟨hop, natToChars_injective _ _ hnum⟩
    · rintro ⟨rfl, rfl⟩
      rfl
  · intro store r1 r2 op now
    show s3Get ((resultKey op now, (⟨op, r2, now, r2.length⟩ : StoredResult)) :: _)
      (resultKey op now) = _
    unfold s3Get
    rw [if_pos rfl]

/-- Witness for the amended C9: keys at the same operation but different
milliseconds are equal only if the milliseconds coincide. -/
theorem spill_key_uniqueness_witness :
    resultKey (("count_analysis").toList) 7 = resultKey (("count_analysis").toList) 8
      ↔ ((("count_analysis").toList : List Char) = ("count_analysis").toList ∧ 7 = 8) :=
  spill_key_uniqueness.1 (("count_analysis").toList) (("count_analysis").toList) 7 8
    (by decide) (by decide)

end AWSPipeline
